import Mathlib

/-!
# Verification of the storages-api storage backends

A shallow embedding of the storage backends of the `storage-api` crate:
the inline backend (`src/inline.rs`), the hybrid inline/heap backend
(`src/small.rs`), the erased backend (`src/dynamic.rs`), the single-shot
arena backend (`src/one_use_arena.rs`), and the raw vector container
(`src/raw_vec.rs`).

Machine memory is modelled at the byte level (`List Nat`), pluggable
allocators as records of pure state-passing functions, and each backend's
state as an explicit structure.  Fallible operations return an `Option`
result paired with the post-state (Rust's `Result<_, AllocError>` under
`&mut self`: the state can change even when the call fails).
-/

namespace StoragesApi

/-- A byte of memory. -/
abbrev Byte := Nat

/-- `core::alloc::Layout`: a (size, alignment) pair. -/
structure Layout where
  size : Nat
  align : Nat
deriving DecidableEq, Repr

/-- `polyfill::layout_fits_in` (src/polyfill.rs:21-23):
`inner.align() <= outer.align() && inner.size() <= outer.size()`. -/
def layout_fits_in (inner outer : Layout) : Bool :=
  decide (inner.align ≤ outer.align) && decide (inner.size ≤ outer.size)

/-- The layout of one machine word (`Layout::new::<usize>()` on a 64-bit
target), which is also the layout of an `AllocHandle` (a single pointer),
i.e. `SmallStorage::OUTLINE_HANDLE_LAYOUT` (src/small.rs:29). -/
def usizeLayout : Layout := ⟨8, 8⟩

/-! ## The inline backend (src/inline.rs)

`InlineStorage<DataStore>` keeps one object inside a `MaybeUninit<DataStore>`
buffer.  `create` computes the layout needed by the requested metadata and
succeeds exactly when it fits the buffer's layout.  We model the
metadata-to-layout computation (`layout_for_meta`) as an explicit function
parameter, since it is external input to the backend. -/

/-- A handle into an `InlineStorage`; it records only the metadata
(src/inline.rs:25-27). -/
structure InlineStorageHandle (μ : Type) where
  meta : μ
deriving DecidableEq, Repr

/-- `InlineStorage::create` (src/inline.rs:47-58): compute the layout for
the metadata (failing when there is none), then succeed iff it fits the
data-store layout. -/
def InlineStorage.create (ds : Layout) (layoutForMeta : μ → Option Layout)
    (meta : μ) : Option (InlineStorageHandle μ) :=
  match layoutForMeta meta with
  | none => none
  | some needed =>
    if layout_fits_in needed ds then some ⟨meta⟩ else none

/-- `InlineStorage::fits` (src/inline.rs:36-41). -/
def InlineStorage.fits (ds : Layout) (layoutForMeta : μ → Option Layout)
    (meta : μ) : Bool :=
  match layoutForMeta meta with
  | none => false
  | some needed => layout_fits_in needed ds

/-! ## The allocator boundary (src/alloc.rs)

`AllocStorage<A>` forwards every operation to the pluggable `Allocator`.
We model an allocator as a record of pure functions over an allocator
state `σ`; a fallible operation returns `Option Nat × σ` — the address of
the (re)allocated block, or `none` for `AllocError`, together with the
possibly changed allocator state (Rust's `&mut self`).  `read`/`write`
observe and mutate the bytes of an allocated block; they model what the
storage code does through the resolved pointers. -/
structure AllocModel (σ : Type) where
  allocate : σ → Layout → Option Nat × σ
  deallocate : σ → Nat → Layout → σ
  grow : σ → Nat → Layout → Layout → Option Nat × σ
  shrink : σ → Nat → Layout → Layout → Option Nat × σ
  read : σ → Nat → Nat → List Byte
  write : σ → Nat → List Byte → σ

/-! ## The layout-based inline storage used by the hybrid backend

`src/small.rs` and `src/dynamic.rs` call a layout-keyed revision of
`InlineStorage` (`fits(Layout)`, `allocate(Layout)`, handle type `()`);
only the metadata-keyed revision is present under src/. -/

/-- Modelled from the spec: the layout-based `InlineStorage::fits` for the
revision of `src/inline.rs` used by `src/small.rs`, which is absent from
the sources.  Per §4.2 the inline backend accepts a layout exactly when it
"fits within the buffer's size and the buffer's alignment is at least the
requested alignment" — `layout_fits_in needed (Layout::new::<DataStore>())`,
exactly as the in-source twin `BorrowedStorage::fits` (src/borrowed.rs:24-28)
computes it. -/
def inlineFits (ds needed : Layout) : Bool :=
  layout_fits_in needed ds

/-- Modelled from the spec: the layout-based `InlineStorage::allocate`
(absent from src/): per §4.2, succeed iff the layout fits, touching no
state (the region is returned uninitialized), matching
`BorrowedStorage::allocate` (src/borrowed.rs:33-39). -/
def inlineAllocate (ds needed : Layout) : Option Unit :=
  if inlineFits ds needed then some () else none

/-- Modelled from the spec: the layout-based `InlineStorage::grow` (absent
from src/): growth within the same fixed buffer succeeds iff the new
layout fits, with no data movement, matching `BorrowedStorage::grow`
(src/borrowed.rs:51-62). -/
def inlineGrow (ds _old new : Layout) : Option Unit :=
  if inlineFits ds new then some () else none

/-- The contents of the hybrid backend's inline buffer.  The buffer is one
raw `MaybeUninit<DataStore>`; the code reinterprets it either as payload
bytes (when the requested layout fits inline) or as one stored
`AllocHandle` address (when it does not), so we model it as that union. -/
inductive InlineVal where
  | uninit
  | bytes (bs : List Byte)
  | addr (a : Nat)
deriving DecidableEq, Repr

/-- Reading the inline buffer as a stored outline handle
(`*resolve_mut(handle, OUTLINE_HANDLE_LAYOUT).cast()`); junk unless an
address was stored. -/
def InlineVal.asAddr : InlineVal → Nat
  | .addr a => a
  | _ => 0

/-- Reading `n` payload bytes from the inline buffer; junk unless payload
bytes were stored. -/
def InlineVal.asBytes : InlineVal → Nat → List Byte
  | .bytes bs, n => bs.take n
  | _, _ => []

/-! ## The hybrid backend (src/small.rs)

`SmallStorage<DataStore, A>` keeps the payload in the inline buffer when
its layout fits, and otherwise heap-allocates it and keeps the heap
handle (one pointer) in the inline buffer. -/

/-- The state of a `SmallStorage<DataStore, A>`: the inline buffer plus
the wrapped allocator's state (src/small.rs:16-19). -/
structure SmallState (σ : Type) where
  inline : InlineVal
  alloc : σ
deriving DecidableEq, Repr

/-- The outcome of a `SmallStorage` operation: success or `AllocError`
(each with the post-state), undefined behavior (`unreachable_unchecked`),
or the unimplemented `todo!()` panic. -/
inductive SmallResult (σ : Type) where
  | ok (s : SmallState σ)
  | fail (s : SmallState σ)
  | ub
  | todoCase
deriving DecidableEq, Repr

/-- `SmallStorage::allocate` (src/small.rs:35-50): if the layout fits
inline, delegate to the inline storage; otherwise heap-allocate, then
allocate the inline slot for the outline handle and write the returned
address into it. -/
def smallAllocate (ds : Layout) (A : AllocModel σ) (s : SmallState σ)
    (l : Layout) : Option Unit × SmallState σ :=
  if inlineFits ds l then
    match inlineAllocate ds l with
    | some _ => (some (), s)
    | none => (none, s)
  else
    match A.allocate s.alloc l with
    | (none, a') => (none, ⟨s.inline, a'⟩)
    | (some addr, a') =>
      match inlineAllocate ds usizeLayout with
      | some _ => (some (), ⟨.addr addr, a'⟩)
      | none => (none, ⟨s.inline, a'⟩)

/-- `SmallStorage::resolve` (src/small.rs:66-77): if the layout fits
inline the buffer holds the payload; otherwise it holds the heap address
and the payload lives in the allocator's block there. -/
def smallResolve (ds : Layout) (A : AllocModel σ) (s : SmallState σ)
    (l : Layout) : List Byte :=
  if inlineFits ds l then
    s.inline.asBytes l.size
  else
    A.read s.alloc s.inline.asAddr l.size

/-- Writing `bs` through `SmallStorage::resolve_mut` (src/small.rs:79-90)
at layout `l`: the write lands in the inline buffer when `l` fits inline,
otherwise in the heap block whose address the buffer holds. -/
def smallWrite (ds : Layout) (A : AllocModel σ) (s : SmallState σ)
    (l : Layout) (bs : List Byte) : SmallState σ :=
  if inlineFits ds l then
    ⟨.bytes (bs.take l.size), s.alloc⟩
  else
    ⟨s.inline, A.write s.alloc s.inline.asAddr (bs.take l.size)⟩

/-- `SmallStorage::grow` (src/small.rs:92-138), by
`(fits(old_layout), fits(new_layout))`:
inline→inline delegates to the inline grow; outline→inline is
`unreachable_unchecked`; outline→outline forwards to the allocator's grow
and stores the returned address; inline→outline (promotion) heap-allocates
at the new layout, copies the old inline bytes over, releases the inline
slot and stores the new heap address inline (failing first if the outline
handle cannot fit the inline buffer). -/
def smallGrow (ds : Layout) (A : AllocModel σ) (s : SmallState σ)
    (old new : Layout) : SmallResult σ :=
  match inlineFits ds old, inlineFits ds new with
  | true, true =>
    match inlineGrow ds old new with
    | some _ => .ok s
    | none => .fail s
  | false, true => .ub
  | false, false =>
    match A.grow s.alloc s.inline.asAddr old new with
    | (none, a') => .fail ⟨s.inline, a'⟩
    | (some addr', a') => .ok ⟨.addr addr', a'⟩
  | true, false =>
    if ¬ inlineFits ds usizeLayout then .fail s
    else
      match A.allocate s.alloc new with
      | (none, a') => .fail ⟨s.inline, a'⟩
      | (some addr, a') =>
        let payload := s.inline.asBytes old.size
        let a'' := A.write a' addr payload
        .ok ⟨.addr addr, a''⟩

/-- `SmallStorage::shrink` (src/small.rs:140-162), by
`(fits(old_layout), fits(new_layout))`: inline→inline delegates to the
inline shrink (which always succeeds); inline→outline is
`unreachable_unchecked`; outline→outline forwards to the allocator's
shrink; outline→inline (demotion) is `todo!()`. -/
def smallShrink (ds : Layout) (A : AllocModel σ) (s : SmallState σ)
    (old new : Layout) : SmallResult σ :=
  match inlineFits ds old, inlineFits ds new with
  | true, true => .ok s
  | true, false => .ub
  | false, false =>
    match A.shrink s.alloc s.inline.asAddr old new with
    | (none, a') => .fail ⟨s.inline, a'⟩
    | (some addr', a') => .ok ⟨.addr addr', a'⟩
  | false, true => .todoCase

/-! ## The default slice resize algorithm (src/traits.rs:188-234)

Any `MultipleStorage<[T]>` gets `SliceStorage`'s `grow`/`shrink` for free:
create a handle at the new length, copy over the old contents (the whole
old slice on grow, the kept prefix on shrink), destroy the old handle.
We model the underlying multiple storage abstractly as a record of
state-passing functions. -/
structure SliceStorageModel (σ η : Type) where
  create : σ → Nat → Option η × σ
  destroy : σ → η → σ
  resolveLen : σ → η → Nat
  copy : σ → η → η → Nat → σ

/-- The default `SliceStorage::grow` (src/traits.rs:189-210): create at
`new_len` (propagating failure), copy `old_len` elements from the old
handle into the new one, destroy the old handle. -/
def sliceGrowDefault (M : SliceStorageModel σ η) (s : σ) (oldH : η)
    (newLen : Nat) : Option η × σ :=
  match M.create s newLen with
  | (none, s₁) => (none, s₁)
  | (some newH, s₁) =>
    let oldLen := M.resolveLen s₁ oldH
    let s₂ := M.copy s₁ oldH newH oldLen
    (some newH, M.destroy s₂ oldH)

/-- The default `SliceStorage::shrink` (src/traits.rs:212-233): create at
`new_len` (propagating failure), copy `new_len` elements from the old
handle into the new one, destroy the old handle. -/
def sliceShrinkDefault (M : SliceStorageModel σ η) (s : σ) (oldH : η)
    (newLen : Nat) : Option η × σ :=
  match M.create s newLen with
  | (none, s₁) => (none, s₁)
  | (some newH, s₁) =>
    let s₂ := M.copy s₁ oldH newH newLen
    (some newH, M.destroy s₂ oldH)

/-! ## Concrete allocators for witnesses

A deterministic bump allocator over an association-list heap, and an
always-failing allocator (the "zero-sized allocator that always fails" of
the spec's hybrid scenario, `NullAlloc` in tests/useful_properties.rs). -/

/-- A concrete heap: allocated blocks (address, bytes) plus a bump
pointer. -/
structure TestHeap where
  blocks : List (Nat × List Byte)
  next : Nat
deriving DecidableEq, Repr

/-- The bytes of the block at address `p` (empty if unallocated). -/
def TestHeap.find (h : TestHeap) (p : Nat) : List Byte :=
  match h.blocks.find? (fun b => b.1 == p) with
  | some b => b.2
  | none => []

/-- Replace the bytes of the block at address `p`. -/
def TestHeap.store (h : TestHeap) (p : Nat) (bs : List Byte) : TestHeap :=
  ⟨(p, bs) :: h.blocks.filter (fun b => b.1 != p), h.next⟩

/-- A bump allocator whose `allocate` always succeeds at a fresh address
and whose `grow`/`shrink` always fail leaving the heap untouched. -/
def bumpAlloc : AllocModel TestHeap where
  allocate a l := (some a.next, ⟨(a.next, List.replicate l.size 0) :: a.blocks, a.next + l.size + 8⟩)
  deallocate a p _l := ⟨a.blocks.filter (fun b => b.1 != p), a.next⟩
  grow a _p _ol _nl := (none, a)
  shrink a _p _ol _nl := (none, a)
  read a p n := (a.find p).take n
  write a p bs := a.store p bs

/-- An allocator that refuses every request, as the spec's zero-sized
always-failing allocator. -/
def failAlloc : AllocModel TestHeap where
  allocate a _l := (none, a)
  deallocate a _p _l := a
  grow a _p _ol _nl := (none, a)
  shrink a _p _ol _nl := (none, a)
  read a p n := (a.find p).take n
  write a p bs := a.store p bs

/-! ## The erased backend (src/dynamic.rs)

`DynStorage` is one machine word (`MaybeUninit<usize>`), interpreted by
the requested layout at every resolution: the payload itself when its
layout fits in one word, otherwise a raw pointer to the payload.  We model
the word as that union, and dereferencing the stored pointer through a
heap-read function `mem`. -/

/-- The one-word state of `DynStorage` (src/dynamic.rs:196-206). -/
inductive DynWord where
  | val (bs : List Byte)
  | ptr (p : Nat)
deriving DecidableEq, Repr

/-- Reading `n` payload bytes out of the word; junk unless a small payload
is stored. -/
def DynWord.asBytes : DynWord → Nat → List Byte
  | .val bs, n => bs.take n
  | .ptr _, _ => []

/-- Reading the word as a raw pointer; junk unless a pointer is stored. -/
def DynWord.asPtr : DynWord → Nat
  | .ptr p => p
  | .val _ => 0

/-- `DynStorage::allocate` (src/dynamic.rs:219-221): always fails. -/
def dynAllocate (w : DynWord) (_l : Layout) : Option Unit × DynWord :=
  (none, w)

/-- `DynStorage::deallocate` (src/dynamic.rs:233): a no-op. -/
def dynDeallocate (w : DynWord) (_h : Unit) (_l : Layout) : DynWord := w

/-- `DynStorage::grow` (src/dynamic.rs:278-285): always fails. -/
def dynGrow (w : DynWord) (_h : Unit) (_ol _nl : Layout) :
    Option Unit × DynWord :=
  (none, w)

/-- `DynStorage::shrink` (src/dynamic.rs:287-294): always fails. -/
def dynShrink (w : DynWord) (_h : Unit) (_ol _nl : Layout) :
    Option Unit × DynWord :=
  (none, w)

/-- `DynStorage::resolve`/`resolve_mut` (src/dynamic.rs:235-271): if the
requested layout fits `Layout::for_value(&self.storage)` (one word), the
word holds the object; otherwise it holds a pointer to the object, read
through `mem`. -/
def dynResolve (mem : Nat → Nat → List Byte) (w : DynWord) (l : Layout) :
    List Byte :=
  if layout_fits_in l usizeLayout then w.asBytes l.size
  else mem w.asPtr l.size

/-- `Box::<U, DynStorage>::boxed` (src/dynamic.rs:304-362), restricted to
its effect on the word and the allocator state: starting from a
heap-resident value at address `p` with layout `l` under a zero-sized
allocator state `a`, either copy the payload into the word (when `l` fits
one word) or keep the heap pointer verbatim.  In both branches the
original heap block is left allocated (`mem::forget` of the alloc storage;
the source leaks deliberately for want of vtable wrapping). -/
def dynBoxed (A : AllocModel σ) (a : σ) (p : Nat) (l : Layout) :
    DynWord × σ :=
  if layout_fits_in l usizeLayout then
    (.val (A.read a p l.size), a)
  else
    (.ptr p, a)

/-! ## The single-shot arena backend (src/one_use_arena.rs) -/

/-- `OneUseArenaStorage<T, N>` (src/one_use_arena.rs:12-15): `N` slots
and a bump index. -/
structure OneUseArenaStorage (α : Type) where
  data : List α
  next : Nat
deriving Repr

/-- A handle into a `OneUseArenaStorage` (src/one_use_arena.rs:18-20). -/
structure OneUseArenaStorageHandle where
  index : Nat
deriving DecidableEq, Repr

/-- `OneUseArenaStorage::create` (src/one_use_arena.rs:34-42): hand out
the next slot while fewer than `N` have been issued, else fail. -/
def arenaCreate (N : Nat) (s : OneUseArenaStorage α) :
    Option OneUseArenaStorageHandle × OneUseArenaStorage α :=
  if s.next < N then (some ⟨s.next⟩, ⟨s.data, s.next + 1⟩) else (none, s)

/-- `OneUseArenaStorage::destroy` (src/one_use_arena.rs:44): a no-op. -/
def arenaDestroy (s : OneUseArenaStorage α) (_h : OneUseArenaStorageHandle) :
    OneUseArenaStorage α :=
  s

/-- A client-visible arena operation. -/
inductive ArenaOp where
  | createOp
  | destroyOp (h : OneUseArenaStorageHandle)

/-- Running a sequence of arena operations. -/
def runArena (N : Nat) (s : OneUseArenaStorage α) :
    List ArenaOp → OneUseArenaStorage α
  | [] => s
  | .createOp :: ops => runArena N (arenaCreate N s).2 ops
  | .destroyOp h :: ops => runArena N (arenaDestroy s h) ops

/-- The number of creates in the sequence that succeed. -/
def arenaSuccesses (N : Nat) (s : OneUseArenaStorage α) :
    List ArenaOp → Nat
  | [] => 0
  | .createOp :: ops =>
    (if s.next < N then 1 else 0) + arenaSuccesses N (arenaCreate N s).2 ops
  | .destroyOp h :: ops => arenaSuccesses N (arenaDestroy s h) ops

/-- `PartialEq for OneUseArenaStorageHandle` (src/one_use_arena.rs:72-76):
every pair of handles is equal. -/
def OneUseArenaStorageHandle.beq
    (_a _b : OneUseArenaStorageHandle) : Bool :=
  true

/-- `Ord for OneUseArenaStorageHandle` (src/one_use_arena.rs:84-88):
every comparison is `Equal`. -/
def OneUseArenaStorageHandle.cmp
    (_a _b : OneUseArenaStorageHandle) : Ordering :=
  Ordering.eq

/-- `PartialOrd for OneUseArenaStorageHandle` (src/one_use_arena.rs:78-82):
`Some(self.cmp(rhs))`. -/
def OneUseArenaStorageHandle.partialCmp
    (a b : OneUseArenaStorageHandle) : Option Ordering :=
  some (a.cmp b)

/-- `Hash for OneUseArenaStorageHandle` (src/one_use_arena.rs:90-92):
writes nothing to the hasher, modelled as the hasher's accumulated byte
state passing through unchanged. -/
def OneUseArenaStorageHandle.hashInto (st : List Nat)
    (_a : OneUseArenaStorageHandle) : List Nat :=
  st

/-! ## The raw vector container (src/raw_vec.rs) -/

/-- The storage interface `RawVec` consumes, abstracted as state-passing
functions. -/
structure VecStorageModel (σ η : Type) where
  allocate : σ → Layout → Option η × σ
  deallocate : σ → η → Layout → σ
  grow : σ → η → Layout → Layout → Option η × σ
  shrink : σ → η → Layout → Layout → Option η × σ

/-- `RawVec` (src/raw_vec.rs:16-20): a handle, the slice-length metadata,
and the storage. -/
structure RawVec (σ η : Type) where
  handle : η
  metadata : Nat
  storage : σ
deriving DecidableEq, Repr

/-- `RawVec::heap_layout_for` (src/raw_vec.rs:27-29): the layout of
`[T; len]` for an element type of size `es` and alignment `al`. -/
def heapLayoutFor (es al n : Nat) : Layout := ⟨n * es, al⟩

/-- `RawVec::len` (src/raw_vec.rs:69-71): returns the metadata field. -/
def RawVec.len (v : RawVec σ η) : Nat := v.metadata

/-- `RawVec::grow_to` (src/raw_vec.rs:75-89): no-op if already long
enough; otherwise grow the storage from the layout for `len` to the
layout for `new_len`, and on success store the new handle and set the
metadata to `new_len`. -/
def rawVecGrowTo (M : VecStorageModel σ η) (es al : Nat) (v : RawVec σ η)
    (newLen : Nat) : Option Unit × RawVec σ η :=
  if newLen ≤ v.len then (some (), v)
  else
    match M.grow v.storage v.handle (heapLayoutFor es al v.len)
        (heapLayoutFor es al newLen) with
    | (none, s') => (none, ⟨v.handle, v.metadata, s'⟩)
    | (some h', s') => (some (), ⟨h', newLen, s'⟩)

/-- `RawVec::shrink_to` (src/raw_vec.rs:93-106): no-op if already short
enough; otherwise shrink the storage from the layout for `len` to the
layout for `new_len`, and on success store the new handle — leaving the
metadata as it was. -/
def rawVecShrinkTo (M : VecStorageModel σ η) (es al : Nat) (v : RawVec σ η)
    (newLen : Nat) : Option Unit × RawVec σ η :=
  if newLen ≥ v.len then (some (), v)
  else
    match M.shrink v.storage v.handle (heapLayoutFor es al v.len)
        (heapLayoutFor es al newLen) with
    | (none, s') => (none, ⟨v.handle, v.metadata, s'⟩)
    | (some h', s') => (some (), ⟨h', v.metadata, s'⟩)

end StoragesApi

namespace StoragesApi

/-- C2: the inline backend's `create` succeeds iff the requested layout's
size is at most the data-store layout's size and the data-store's alignment
is at least the requested alignment; concretely, with an 8-byte/8-align
buffer a 4-byte/4-align request succeeds and a 16-byte request fails
(whatever its alignment). -/
theorem inline_create_iff_fits (ds : Layout) (layoutForMeta : μ → Option Layout)
    (meta : μ) (L : Layout) (h : layoutForMeta meta = some L) :
    ((InlineStorage.create ds layoutForMeta meta).isSome
        ↔ (L.size ≤ ds.size ∧ ds.align ≥ L.align))
      ∧ (InlineStorage.create ⟨8, 8⟩ some (⟨4, 4⟩ : Layout)).isSome = true
      ∧ ∀ al : Nat, InlineStorage.create ⟨8, 8⟩ some (⟨16, al⟩ : Layout) = none := by
  refine ⟨?_, by decide, ?_⟩
  · unfold InlineStorage.create
    rw [h]
    unfold layout_fits_in
    constructor
    · intro hs
      by_cases hfit : (decide (L.align ≤ ds.align) && decide (L.size ≤ ds.size)) = true
      · simp only [Bool.and_eq_true, decide_eq_true_eq] at hfit
        exact ⟨hfit.2, hfit.1⟩
      · simp [hfit] at hs
    · rintro ⟨h1, h3⟩
      simp [h1, h3]
  · intro al
    unfold InlineStorage.create layout_fits_in
    simp

/-- Witness for `inline_create_iff_fits` at a concrete instantiation. -/
theorem inline_create_iff_fits_witness :
    (some (⟨4, 4⟩ : Layout) = some (⟨4, 4⟩ : Layout))
      ∧ ((InlineStorage.create ⟨8, 8⟩ some (⟨4, 4⟩ : Layout)).isSome
          ↔ ((4 : Nat) ≤ 8 ∧ (8 : Nat) ≥ 4)) :=
  ⟨rfl, (inline_create_iff_fits ⟨8, 8⟩ some ⟨4, 4⟩ ⟨4, 4⟩ rfl).1⟩

/-- If `SmallStorage::grow` fails with `AllocError`, the inline buffer is
unchanged and the old handle still resolves to the same bytes (given the
allocator's contract that a failed `grow` leaves the grown block's bytes
in place). -/
theorem smallGrow_fail_frame (ds : Layout) (A : AllocModel σ)
    (s s' : SmallState σ) (old new : Layout)
    (HgrowFail : ∀ a p ol nl a', A.grow a p ol nl = (none, a') →
      ∀ n, A.read a' p n = A.read a p n)
    (hg : smallGrow ds A s old new = .fail s') :
    s'.inline = s.inline ∧ smallResolve ds A s' old = smallResolve ds A s old := by
  unfold smallGrow at hg
  cases hfo : inlineFits ds old <;> cases hfn : inlineFits ds new <;>
    rw [hfo, hfn] at hg <;> simp only [] at hg
  · -- (false, false): outline→outline, delegate to the allocator's grow
    rcases hG : A.grow s.alloc s.inline.asAddr old new with ⟨o, a'⟩
    rw [hG] at hg
    cases o with
    | none =>
      simp only [SmallResult.fail.injEq] at hg
      subst hg
      refine ⟨rfl, ?_⟩
      unfold smallResolve
      rw [hfo]
      simp only [Bool.false_eq_true, if_false]
      exact HgrowFail _ _ _ _ _ hG _
    | some addr' => simp at hg
  · -- (false, true): unreachable_unchecked, not a failure
    simp at hg
  · -- (true, false): promotion; failure before any inline change
    by_cases hul : inlineFits ds usizeLayout = true
    · rw [if_neg (by simp [hul])] at hg
      rcases hA : A.allocate s.alloc new with ⟨o, a'⟩
      rw [hA] at hg
      cases o with
      | none =>
        simp only [SmallResult.fail.injEq] at hg
        subst hg
        refine ⟨rfl, ?_⟩
        unfold smallResolve
        rw [hfo]
        simp
      | some addr => simp at hg
    · rw [if_pos (by simpa using hul)] at hg
      simp only [SmallResult.fail.injEq] at hg
      subst hg
      exact ⟨rfl, rfl⟩
  · -- (true, true): inline grow succeeds because the new layout fits
    rw [inlineGrow, if_pos hfn] at hg
    simp at hg

/-- If `SmallStorage::shrink` fails with `AllocError`, the inline buffer
is unchanged and the old handle still resolves to the same bytes (given
the allocator's contract that a failed `shrink` leaves the block's bytes
in place). -/
theorem smallShrink_fail_frame (ds : Layout) (A : AllocModel σ)
    (s s' : SmallState σ) (old new : Layout)
    (HshrinkFail : ∀ a p ol nl a', A.shrink a p ol nl = (none, a') →
      ∀ n, A.read a' p n = A.read a p n)
    (hg : smallShrink ds A s old new = .fail s') :
    s'.inline = s.inline ∧ smallResolve ds A s' old = smallResolve ds A s old := by
  unfold smallShrink at hg
  cases hfo : inlineFits ds old <;> cases hfn : inlineFits ds new <;>
    rw [hfo, hfn] at hg <;> simp only [] at hg
  · -- (false, false): outline→outline, delegate to the allocator's shrink
    rcases hG : A.shrink s.alloc s.inline.asAddr old new with ⟨o, a'⟩
    rw [hG] at hg
    cases o with
    | none =>
      simp only [SmallResult.fail.injEq] at hg
      subst hg
      refine ⟨rfl, ?_⟩
      unfold smallResolve
      rw [hfo]
      simp only [Bool.false_eq_true, if_false]
      exact HshrinkFail _ _ _ _ _ hG _
    | some addr' => simp at hg
  · -- (false, true): todo!() panic, not a failure
    simp at hg
  · -- (true, false): unreachable_unchecked, not a failure
    simp at hg
  · -- (true, true): inline shrink always succeeds
    simp at hg

/-- If `SmallStorage::allocate` fails with `AllocError`, the inline buffer
is unchanged — though the allocator state need not be. -/
theorem smallAllocate_fail_frame (ds : Layout) (A : AllocModel σ)
    (s sa : SmallState σ) (l : Layout)
    (ha : smallAllocate ds A s l = (none, sa)) : sa.inline = s.inline := by
  unfold smallAllocate at ha
  by_cases hfl : inlineFits ds l = true
  · rw [if_pos hfl, inlineAllocate, if_pos hfl] at ha
    simp at ha
  · rw [if_neg hfl] at ha
    rcases hA : A.allocate s.alloc l with ⟨o, a'⟩
    rw [hA] at ha
    cases o with
    | none =>
      simp only [Prod.mk.injEq] at ha
      rw [← ha.2]
    | some addr =>
      cases hil : inlineAllocate ds usizeLayout with
      | none =>
        rw [hil] at ha
        simp only [Prod.mk.injEq] at ha
        rw [← ha.2]
      | some u =>
        rw [hil] at ha
        simp at ha

/-- C1 (counterexample): a failed `SmallStorage::allocate` does NOT always
leave the storage state unchanged.  With a one-byte data store and an
allocator whose `allocate` succeeds, `allocate(Layout { size: 16, align: 8 })`
heap-allocates, then fails to allocate the inline slot for the outline
handle (a pointer does not fit one byte) and returns `AllocError` — with
the freshly allocated heap block retained (leaked) in the storage's
allocator state. -/
theorem small_create_fail_changes_state_cex :
    (smallAllocate ⟨1, 1⟩ bumpAlloc ⟨.uninit, ⟨[], 100⟩⟩ ⟨16, 8⟩).1 = none
      ∧ (smallAllocate ⟨1, 1⟩ bumpAlloc ⟨.uninit, ⟨[], 100⟩⟩ ⟨16, 8⟩).2
          ≠ (⟨.uninit, ⟨[], 100⟩⟩ : SmallState TestHeap) := by
  constructor
  · rfl
  · intro h
    simp [smallAllocate, inlineFits, layout_fits_in, usizeLayout, inlineAllocate,
      bumpAlloc, SmallState.mk.injEq, TestHeap.mk.injEq] at h

/-- C1 (amended): whenever a fallible hybrid-backend or default-slice
operation returns `AllocError`, every handle valid before the call still
resolves to the same bytes and the hybrid inline buffer is unchanged;
for the default slice resize this requires the underlying storage's
failing `create` to leave its state unchanged.  (The full "storage state
is unchanged" does not hold for a failed hybrid `create`, which can
retain a leaked heap block — see the counterexample.) -/
theorem storage_fail_preserves_handles
    (ds : Layout) (A : AllocModel σ) (s sg ss sa : SmallState σ)
    (old new old₂ new₂ l : Layout)
    (M : SliceStorageModel σ₂ η) (t t₁ : σ₂) (oldH : η) (n : Nat)
    (HgrowFail : ∀ a p ol nl a', A.grow a p ol nl = (none, a') →
      ∀ m, A.read a' p m = A.read a p m)
    (HshrinkFail : ∀ a p ol nl a', A.shrink a p ol nl = (none, a') →
      ∀ m, A.read a' p m = A.read a p m)
    (hg : smallGrow ds A s old new = .fail sg)
    (hs : smallShrink ds A s old₂ new₂ = .fail ss)
    (ha : smallAllocate ds A s l = (none, sa))
    (hc : M.create t n = (none, t₁)) (hcf : t₁ = t) :
    (sg.inline = s.inline ∧ smallResolve ds A sg old = smallResolve ds A s old)
      ∧ (ss.inline = s.inline ∧ smallResolve ds A ss old₂ = smallResolve ds A s old₂)
      ∧ sa.inline = s.inline
      ∧ sliceGrowDefault M t oldH n = (none, t)
      ∧ sliceShrinkDefault M t oldH n = (none, t) := by
  subst hcf
  refine ⟨smallGrow_fail_frame ds A s sg old new HgrowFail hg,
    smallShrink_fail_frame ds A s ss old₂ new₂ HshrinkFail hs,
    smallAllocate_fail_frame ds A s sa l ha, ?_, ?_⟩
  · unfold sliceGrowDefault
    rw [hc]
  · unfold sliceShrinkDefault
    rw [hc]

/-- A slice-storage model whose `create` always fails without touching the
state (over the default resize algorithm, the only failure point). -/
def failSliceModel : SliceStorageModel TestHeap Nat where
  create t _ := (none, t)
  destroy t _ := t
  resolveLen _ _ := 0
  copy t _ _ _ := t

/-- Witness for `storage_fail_preserves_handles`: the hybrid backend over
the always-failing allocator, with concrete failing grow, shrink and
create calls, and the default slice resize over a create-always-fails
storage model. -/
theorem storage_fail_preserves_handles_witness :
    ((⟨.addr 0, ⟨[(0, [1, 2, 3])], 50⟩⟩ : SmallState TestHeap).inline
          = (⟨.addr 0, ⟨[(0, [1, 2, 3])], 50⟩⟩ : SmallState TestHeap).inline
        ∧ smallResolve ⟨8, 8⟩ failAlloc ⟨.addr 0, ⟨[(0, [1, 2, 3])], 50⟩⟩ ⟨16, 8⟩
          = smallResolve ⟨8, 8⟩ failAlloc ⟨.addr 0, ⟨[(0, [1, 2, 3])], 50⟩⟩ ⟨16, 8⟩)
      ∧ ((⟨.addr 0, ⟨[(0, [1, 2, 3])], 50⟩⟩ : SmallState TestHeap).inline
            = (⟨.addr 0, ⟨[(0, [1, 2, 3])], 50⟩⟩ : SmallState TestHeap).inline
          ∧ smallResolve ⟨8, 8⟩ failAlloc ⟨.addr 0, ⟨[(0, [1, 2, 3])], 50⟩⟩ ⟨32, 8⟩
            = smallResolve ⟨8, 8⟩ failAlloc ⟨.addr 0, ⟨[(0, [1, 2, 3])], 50⟩⟩ ⟨32, 8⟩)
      ∧ (⟨.addr 0, ⟨[(0, [1, 2, 3])], 50⟩⟩ : SmallState TestHeap).inline
          = (⟨.addr 0, ⟨[(0, [1, 2, 3])], 50⟩⟩ : SmallState TestHeap).inline
      ∧ sliceGrowDefault failSliceModel ⟨[], 0⟩ 7 5 = (none, (⟨[], 0⟩ : TestHeap))
      ∧ sliceShrinkDefault failSliceModel ⟨[], 0⟩ 7 5 = (none, (⟨[], 0⟩ : TestHeap)) :=
  storage_fail_preserves_handles ⟨8, 8⟩ failAlloc
    ⟨.addr 0, ⟨[(0, [1, 2, 3])], 50⟩⟩ ⟨.addr 0, ⟨[(0, [1, 2, 3])], 50⟩⟩
    ⟨.addr 0, ⟨[(0, [1, 2, 3])], 50⟩⟩ ⟨.addr 0, ⟨[(0, [1, 2, 3])], 50⟩⟩
    ⟨16, 8⟩ ⟨32, 8⟩ ⟨32, 8⟩ ⟨16, 8⟩ ⟨24, 8⟩
    failSliceModel ⟨[], 0⟩ ⟨[], 0⟩ 7 5
    (fun a p ol nl a' h m => by
      simp only [failAlloc] at h
      rw [(Prod.mk.injEq _ _ _ _).mp h |>.2])
    (fun a p ol nl a' h m => by
      simp only [failAlloc] at h
      rw [(Prod.mk.injEq _ _ _ _).mp h |>.2])
    (by decide) (by decide) (by decide) rfl rfl

/-- `bumpAlloc` reading back a just-written block. -/
theorem bumpAlloc_read_write (a : TestHeap) (p : Nat) (xs : List Byte)
    (m : Nat) : bumpAlloc.read (bumpAlloc.write a p xs) p m = xs.take m := by
  show ((TestHeap.store a p xs).find p).take m = xs.take m
  unfold TestHeap.store TestHeap.find
  rw [List.find?_cons_of_pos _ (by simp)]

/-- `bumpAlloc` reads are prefix-consistent. -/
theorem bumpAlloc_read_prefix (a : TestHeap) (p m k : Nat) (h : m ≤ k) :
    (bumpAlloc.read a p k).take m = bumpAlloc.read a p m := by
  show ((a.find p).take k).take m = (a.find p).take m
  rw [List.take_take, Nat.min_eq_left h]

/-- C3 (counterexample): with a one-byte inline buffer and an allocator
whose `allocate` succeeds, `SmallStorage::allocate` for a 16-byte layout
fails even though the heap allocation succeeded (the outline handle — a
pointer — does not fit the one-byte inline buffer), refuting
"create succeeds iff the wrapped heap allocation succeeds". -/
theorem small_create_iff_heap_cex :
    inlineFits ⟨1, 1⟩ ⟨16, 8⟩ = false
      ∧ (bumpAlloc.allocate ⟨[], 100⟩ ⟨16, 8⟩).1.isSome = true
      ∧ (smallAllocate ⟨1, 1⟩ bumpAlloc ⟨.uninit, ⟨[], 100⟩⟩ ⟨16, 8⟩).1 = none := by
  decide

/-- C3 (amended): for a layout that does not fit inline, provided the
outline handle's layout fits the inline buffer (as with the word-sized
buffer), the hybrid `allocate` succeeds iff the wrapped heap allocation
succeeds; and when the heap allocation fails the call returns the error
with the inline buffer untouched and the allocator state exactly the one
left by the failed attempt — no allocation retained. -/
theorem small_create_iff_heap_alloc (ds l : Layout) (A : AllocModel σ)
    (s : SmallState σ) (hnf : inlineFits ds l = false)
    (hhl : inlineFits ds usizeLayout = true) :
    ((smallAllocate ds A s l).1.isSome = (A.allocate s.alloc l).1.isSome)
      ∧ (∀ a', A.allocate s.alloc l = (none, a') →
          smallAllocate ds A s l = (none, ⟨s.inline, a'⟩)) := by
  unfold smallAllocate
  rw [if_neg (by simp [hnf])]
  rcases hA : A.allocate s.alloc l with ⟨o, a'⟩
  cases o with
  | none =>
    refine ⟨rfl, fun a'' ha'' => ?_⟩
    simp only [Prod.mk.injEq] at ha''
    rw [ha''.2]
  | some addr =>
    rw [inlineAllocate, if_pos hhl]
    exact ⟨rfl, fun a'' ha'' => by simp at ha''⟩

/-- Witness for `small_create_iff_heap_alloc`: the spec's concrete
scenario — a word-sized inline slot over the always-failing (zero-sized)
allocator, creating a 16-byte payload. -/
theorem small_create_iff_heap_alloc_witness :
    inlineFits ⟨8, 8⟩ ⟨16, 8⟩ = false
      ∧ ((smallAllocate ⟨8, 8⟩ failAlloc ⟨.uninit, ⟨[], 0⟩⟩ ⟨16, 8⟩).1.isSome
          = (failAlloc.allocate (⟨[], 0⟩ : TestHeap) ⟨16, 8⟩).1.isSome
        ∧ ∀ a', failAlloc.allocate (⟨[], 0⟩ : TestHeap) ⟨16, 8⟩ = (none, a') →
            smallAllocate ⟨8, 8⟩ failAlloc ⟨.uninit, ⟨[], 0⟩⟩ ⟨16, 8⟩
              = (none, ⟨.uninit, a'⟩)) :=
  ⟨by decide,
    small_create_iff_heap_alloc ⟨8, 8⟩ ⟨16, 8⟩ failAlloc ⟨.uninit, ⟨[], 0⟩⟩
      (by decide) (by decide)⟩

/-- C4: hybrid promotion correctness.  Creating at a small layout succeeds
inline without touching state; writing `bs` through `resolve_mut` and then
growing past inline capacity (with the heap allocation succeeding at
`addr`) heap-allocates at the new layout, copies the old inline bytes into
it, and stores the heap handle inline — and the grown region's first
`old.size` bytes are exactly the bytes written before the grow (under the
allocator's read/write contract). -/
theorem small_promotion_preserves_bytes (ds old new : Layout)
    (A : AllocModel σ) (s : SmallState σ) (bs : List Byte) (addr : Nat) (a' : σ)
    (hfo : inlineFits ds old = true) (hfn : inlineFits ds new = false)
    (hhl : inlineFits ds usizeLayout = true)
    (hlen : bs.length = old.size) (hsz : old.size ≤ new.size)
    (halloc : A.allocate (smallWrite ds A s old bs).alloc new = (some addr, a'))
    (Hrw : ∀ p xs m, m ≤ xs.length →
      A.read (A.write a' p xs) p m = xs.take m)
    (Hrp : ∀ b p m k, m ≤ k → (A.read b p k).take m = A.read b p m) :
    (smallAllocate ds A s old).1 = some ()
      ∧ (smallAllocate ds A s old).2 = s
      ∧ smallGrow ds A (smallWrite ds A s old bs) old new
          = .ok ⟨.addr addr, A.write a' addr bs⟩
      ∧ (smallResolve ds A ⟨.addr addr, A.write a' addr bs⟩ new).take old.size
          = bs := by
  have hbs : bs.take old.size = bs := by rw [← hlen, List.take_length]
  have h1 : (smallAllocate ds A s old) = (some (), s) := by
    unfold smallAllocate
    rw [if_pos hfo, inlineAllocate, if_pos hfo]
  refine ⟨by rw [h1], by rw [h1], ?_, ?_⟩
  · unfold smallGrow
    rw [hfo, hfn]
    simp only []
    rw [if_neg (by simp [hhl])]
    rw [halloc]
    unfold smallWrite
    rw [if_pos hfo]
    simp only [InlineVal.asBytes, List.take_take, Nat.min_self, hbs]
  · unfold smallResolve
    rw [if_neg (by simp [hfn])]
    simp only [InlineVal.asAddr]
    rw [Hrp _ _ _ _ hsz, Hrw _ _ _ (by rw [hlen]), hbs]

/-- Witness for `small_promotion_preserves_bytes`: word-sized inline
buffer over the bump allocator; bytes `[1,2,3,4]` written at layout
`4/4` survive as the prefix after growing to `16/8`. -/
theorem small_promotion_preserves_bytes_witness :
    (smallAllocate ⟨8, 8⟩ bumpAlloc ⟨.uninit, ⟨[], 100⟩⟩ ⟨4, 4⟩).1 = some ()
      ∧ (smallAllocate ⟨8, 8⟩ bumpAlloc ⟨.uninit, ⟨[], 100⟩⟩ ⟨4, 4⟩).2
          = (⟨.uninit, ⟨[], 100⟩⟩ : SmallState TestHeap)
      ∧ smallGrow ⟨8, 8⟩ bumpAlloc
            (smallWrite ⟨8, 8⟩ bumpAlloc ⟨.uninit, ⟨[], 100⟩⟩ ⟨4, 4⟩ [1, 2, 3, 4])
            ⟨4, 4⟩ ⟨16, 8⟩
          = .ok ⟨.addr 100,
              bumpAlloc.write ⟨[(100, List.replicate 16 0)], 124⟩ 100 [1, 2, 3, 4]⟩
      ∧ (smallResolve ⟨8, 8⟩ bumpAlloc
            ⟨.addr 100,
              bumpAlloc.write ⟨[(100, List.replicate 16 0)], 124⟩ 100 [1, 2, 3, 4]⟩
            ⟨16, 8⟩).take 4
          = [1, 2, 3, 4] :=
  small_promotion_preserves_bytes ⟨8, 8⟩ ⟨4, 4⟩ ⟨16, 8⟩ bumpAlloc
    ⟨.uninit, ⟨[], 100⟩⟩ [1, 2, 3, 4] 100 ⟨[(100, List.replicate 16 0)], 124⟩
    (by decide) (by decide) (by decide) (by decide) (by decide) (by decide)
    (fun p xs m _ => bumpAlloc_read_write _ p xs m)
    (fun b p m k h => bumpAlloc_read_prefix b p m k h)

/-- C5 (counterexample): under only the size-monotonicity precondition
("the new layout describes a region at least as large"), the
outline→inline branch of `SmallStorage::grow` IS reachable: a 4-byte
16-aligned old layout does not fit an 8-byte 8-aligned buffer while the
8-byte 8-aligned new layout does, so the `unreachable_unchecked` would
execute. -/
theorem small_grow_unreachable_reached_cex :
    (Layout.mk 4 16).size ≤ (Layout.mk 8 8).size
      ∧ smallGrow ⟨8, 8⟩ bumpAlloc ⟨.uninit, ⟨[], 0⟩⟩ ⟨4, 16⟩ ⟨8, 8⟩
          = SmallResult.ub := by
  decide

/-- C5 (amended): when additionally the new layout's alignment is at least
the old's — automatic for the slice-shaped resizes the resize contract is
defined for, where both layouts share the element type's alignment — the
outline→inline branch of `SmallStorage::grow` is never reached. -/
theorem small_grow_never_unreachable (ds old new : Layout) (A : AllocModel σ)
    (s : SmallState σ) (hsz : old.size ≤ new.size)
    (hal : old.align ≤ new.align) : smallGrow ds A s old new ≠ SmallResult.ub := by
  unfold smallGrow
  cases hfo : inlineFits ds old <;> cases hfn : inlineFits ds new <;>
    simp only []
  · rcases A.grow s.alloc s.inline.asAddr old new with ⟨o, a'⟩
    cases o <;> simp
  · -- (false, true) is impossible: if the new layout fits, so does the old
    exfalso
    unfold inlineFits layout_fits_in at hfo hfn
    simp only [Bool.and_eq_true, decide_eq_true_eq] at hfn
    rw [Bool.and_eq_false_iff] at hfo
    rcases hfo with h | h <;> rw [decide_eq_false_iff_not] at h
    · exact h (le_trans hal hfn.1)
    · exact h (le_trans hsz hfn.2)
  · by_cases hul : inlineFits ds usizeLayout = true
    · rw [if_neg (by simp [hul])]
      rcases A.allocate s.alloc new with ⟨o, a'⟩
      cases o <;> simp
    · rw [if_pos (by simpa using hul)]
      simp
  · cases inlineGrow ds old new <;> simp

/-- Witness for `small_grow_never_unreachable` at a concrete grow call. -/
theorem small_grow_never_unreachable_witness :
    smallGrow ⟨8, 8⟩ bumpAlloc ⟨.uninit, ⟨[], 0⟩⟩ ⟨4, 4⟩ ⟨8, 8⟩
      ≠ SmallResult.ub :=
  small_grow_never_unreachable ⟨8, 8⟩ ⟨4, 4⟩ ⟨8, 8⟩ bumpAlloc
    ⟨.uninit, ⟨[], 0⟩⟩ (by decide) (by decide)

/-- C6: the erased backend's `allocate`, `grow` and `shrink` fail for
every input layout and state, leaving the word unchanged; `deallocate` is
a no-op; and resolution selects the inline-word interpretation exactly
when the requested layout fits in one machine word (independent of the
heap) and otherwise dereferences the stored pointer, consulting no state
beyond the word's pointer value. -/
theorem dyn_storage_ops (w w' : DynWord) (h : Unit) (l ol nl : Layout)
    (mem mem' : Nat → Nat → List Byte) :
    dynAllocate w l = (none, w)
      ∧ dynGrow w h ol nl = (none, w)
      ∧ dynShrink w h ol nl = (none, w)
      ∧ dynDeallocate w h l = w
      ∧ (layout_fits_in l usizeLayout = true →
          dynResolve mem w l = w.asBytes l.size
            ∧ dynResolve mem w l = dynResolve mem' w l)
      ∧ (layout_fits_in l usizeLayout = false →
          dynResolve mem w l = mem w.asPtr l.size
            ∧ (w'.asPtr = w.asPtr → dynResolve mem w' l = dynResolve mem w l)) := by
  refine ⟨rfl, rfl, rfl, rfl, fun hf => ?_, fun hf => ?_⟩
  · have e : ∀ m : Nat → Nat → List Byte, dynResolve m w l = w.asBytes l.size := by
      intro m
      unfold dynResolve
      rw [if_pos hf]
    exact ⟨e mem, by rw [e mem, e mem']⟩
  · have e : ∀ u : DynWord, dynResolve mem u l = mem u.asPtr l.size := by
      intro u
      unfold dynResolve
      rw [if_neg (by simp [hf])]
    exact ⟨e w, fun hp => by rw [e w', e w, hp]⟩

/-- Witness for `dyn_storage_ops`: a one-byte payload resolves from the
word whatever the heap says; a 16-byte layout resolves through the stored
pointer. -/
theorem dyn_storage_ops_witness :
    (dynResolve (fun _ _ => [0]) (.val [7]) ⟨1, 1⟩
        = (DynWord.val [7]).asBytes 1
      ∧ dynResolve (fun _ _ => [0]) (.val [7]) ⟨1, 1⟩
        = dynResolve (fun _ _ => [9]) (.val [7]) ⟨1, 1⟩)
      ∧ dynResolve (fun _ _ => [0]) (.ptr 5) ⟨16, 8⟩
        = (fun _ _ => ([0] : List Byte)) (DynWord.ptr 5).asPtr 16 :=
  ⟨(dyn_storage_ops (.val [7]) (.val [7]) () ⟨1, 1⟩ ⟨1, 1⟩ ⟨1, 1⟩
      (fun _ _ => [0]) (fun _ _ => [9])).2.2.2.2.1 (by decide),
    ((dyn_storage_ops (.ptr 5) (.ptr 5) () ⟨16, 8⟩ ⟨16, 8⟩ ⟨16, 8⟩
      (fun _ _ => [0]) (fun _ _ => [9])).2.2.2.2.2 (by decide)).1⟩

/-- C7 (counterexample): constructing the erased backend from a
heap-resident word-sized value copies the bytes into the inline word but
does NOT free the original heap slot: the allocator state comes back
unchanged, whereas a deallocation of that slot would have changed it. -/
theorem dyn_boxed_no_free_cex :
    layout_fits_in ⟨8, 8⟩ usizeLayout = true
      ∧ (dynBoxed bumpAlloc ⟨[(100, [1, 2, 3, 4, 5, 6, 7, 8])], 200⟩ 100
            ⟨8, 8⟩).2
          = (⟨[(100, [1, 2, 3, 4, 5, 6, 7, 8])], 200⟩ : TestHeap)
      ∧ bumpAlloc.deallocate ⟨[(100, [1, 2, 3, 4, 5, 6, 7, 8])], 200⟩ 100
            ⟨8, 8⟩
          ≠ (⟨[(100, [1, 2, 3, 4, 5, 6, 7, 8])], 200⟩ : TestHeap) := by
  decide

/-- C7 (amended): `Box::boxed` copies a word-sized-or-smaller payload into
the inline word and otherwise keeps the heap pointer verbatim; in both
cases the original heap slot is left allocated (deliberately leaked — no
deallocation happens). -/
theorem dyn_boxed_spec (A : AllocModel σ) (a : σ) (p : Nat) (l : Layout) :
    (layout_fits_in l usizeLayout = true →
        dynBoxed A a p l = (.val (A.read a p l.size), a))
      ∧ (layout_fits_in l usizeLayout = false →
        dynBoxed A a p l = (.ptr p, a)) := by
  constructor
  · intro hf
    unfold dynBoxed
    rw [if_pos hf]
  · intro hf
    unfold dynBoxed
    rw [if_neg (by simp [hf])]

/-- Witness for `dyn_boxed_spec` at a word-sized and an oversized
payload. -/
theorem dyn_boxed_spec_witness :
    dynBoxed bumpAlloc (⟨[(100, [1, 2, 3, 4, 5, 6, 7, 8])], 200⟩ : TestHeap)
        100 ⟨8, 8⟩
      = (.val (bumpAlloc.read ⟨[(100, [1, 2, 3, 4, 5, 6, 7, 8])], 200⟩ 100 8),
          ⟨[(100, [1, 2, 3, 4, 5, 6, 7, 8])], 200⟩)
      ∧ dynBoxed bumpAlloc (⟨[(100, [1, 2, 3, 4, 5, 6, 7, 8])], 200⟩ : TestHeap)
          100 ⟨16, 8⟩
        = (.ptr 100, ⟨[(100, [1, 2, 3, 4, 5, 6, 7, 8])], 200⟩) :=
  ⟨(dyn_boxed_spec bumpAlloc ⟨[(100, [1, 2, 3, 4, 5, 6, 7, 8])], 200⟩ 100
      ⟨8, 8⟩).1 (by decide),
    (dyn_boxed_spec bumpAlloc ⟨[(100, [1, 2, 3, 4, 5, 6, 7, 8])], 200⟩ 100
      ⟨16, 8⟩).2 (by decide)⟩

/-- The bump index after a run equals the starting index plus the number
of successful creates; the slots are never touched. -/
theorem runArena_next_data (N : Nat) :
    ∀ (ops : List ArenaOp) (s : OneUseArenaStorage α),
      (runArena N s ops).next = s.next + arenaSuccesses N s ops
        ∧ (runArena N s ops).data = s.data := by
  intro ops
  induction ops with
  | nil => intro s; exact ⟨rfl, rfl⟩
  | cons op ops ih =>
    intro s
    cases op with
    | createOp =>
      rcases ih (arenaCreate N s).2 with ⟨ihn, ihd⟩
      unfold runArena arenaSuccesses
      rw [ihn, ihd]
      by_cases hlt : s.next < N
      · have hc : arenaCreate N s = (some ⟨s.next⟩, ⟨s.data, s.next + 1⟩) := by
          unfold arenaCreate
          rw [if_pos hlt]
        rw [if_pos hlt, hc]
        refine ⟨?_, rfl⟩
        dsimp only
        omega
      · have hc : arenaCreate N s = (none, s) := by
          unfold arenaCreate
          rw [if_neg hlt]
        rw [if_neg hlt, hc]
        refine ⟨?_, rfl⟩
        dsimp only
        omega
    | destroyOp h =>
      rcases ih s with ⟨ihn, ihd⟩
      unfold runArena arenaSuccesses arenaDestroy
      exact ⟨ihn, ihd⟩

/-- C8: starting from a fresh single-shot arena of capacity `N`, after any
sequence of creates and destroys, the next `create` succeeds iff fewer
than `N` creates have succeeded so far; `destroy` never changes the
arena's state (so destroying handles cannot re-enable `create`); and the
slot array is never replaced. -/
theorem arena_create_iff_under_capacity (N : Nat) (ops : List ArenaOp)
    (d : List α) (s : OneUseArenaStorage α) (h : OneUseArenaStorageHandle) :
    ((arenaCreate N (runArena N ⟨d, 0⟩ ops)).1.isSome
        ↔ arenaSuccesses N ⟨d, 0⟩ ops < N)
      ∧ arenaDestroy s h = s
      ∧ (runArena N ⟨d, 0⟩ ops).data = d := by
  rcases runArena_next_data N ops ⟨d, 0⟩ with ⟨hn, hd⟩
  refine ⟨?_, rfl, hd⟩
  unfold arenaCreate
  rw [hn]
  simp only [Nat.zero_add]
  by_cases hlt : arenaSuccesses N (⟨d, 0⟩ : OneUseArenaStorage α) ops < N
  · rw [if_pos hlt]
    simp [hlt]
  · rw [if_neg hlt]
    simp [hlt]

/-- C10: arena handles are indistinguishable by comparison or hashing:
equality is constantly `true`, comparison constantly `Equal`
(`partial_cmp` constantly `Some(Equal)`), and hashing writes nothing to
the hasher — even for the handles of two distinct successful creates,
which carry distinct slot indices. -/
theorem arena_handles_indistinguishable (a b : OneUseArenaStorageHandle)
    (st : List Nat) :
    a.beq b = true
      ∧ a.cmp b = Ordering.eq
      ∧ a.partialCmp b = some Ordering.eq
      ∧ OneUseArenaStorageHandle.hashInto st a = st
      ∧ (arenaCreate 2 (⟨[], 0⟩ : OneUseArenaStorage Nat)).1 = some ⟨0⟩
      ∧ (arenaCreate 2 (arenaCreate 2 (⟨[], 0⟩ : OneUseArenaStorage Nat)).2).1
          = some ⟨1⟩
      ∧ (⟨0⟩ : OneUseArenaStorageHandle).index
          ≠ (⟨1⟩ : OneUseArenaStorageHandle).index
      ∧ OneUseArenaStorageHandle.beq ⟨0⟩ ⟨1⟩ = true :=
  ⟨rfl, rfl, rfl, rfl, by decide, by decide, by decide, rfl⟩

/-- C9: a successful `RawVec::shrink_to` with `new_len < len()` stores the
new handle and the shrunk storage state (the storage was shrunk from the
layout for `len()` to the layout for `new_len`) but leaves `len()` — the
stored metadata — unchanged; a successful `grow_to` with `len() < new_len`
updates `len()` to `new_len`. -/
theorem rawVec_shrink_keeps_len (M : VecStorageModel σ η) (es al : Nat)
    (v : RawVec σ η) (newLen newLen₂ : Nat) (h₁ h₂ : η) (s₁ s₂ : σ)
    (hlt : newLen < v.len)
    (hshr : M.shrink v.storage v.handle (heapLayoutFor es al v.len)
        (heapLayoutFor es al newLen) = (some h₁, s₁))
    (hgt : v.len < newLen₂)
    (hgrw : M.grow v.storage v.handle (heapLayoutFor es al v.len)
        (heapLayoutFor es al newLen₂) = (some h₂, s₂)) :
    rawVecShrinkTo M es al v newLen = (some (), ⟨h₁, v.metadata, s₁⟩)
      ∧ (rawVecShrinkTo M es al v newLen).2.len = v.len
      ∧ rawVecGrowTo M es al v newLen₂ = (some (), ⟨h₂, newLen₂, s₂⟩)
      ∧ (rawVecGrowTo M es al v newLen₂).2.len = newLen₂ := by
  have hs : rawVecShrinkTo M es al v newLen = (some (), ⟨h₁, v.metadata, s₁⟩) := by
    unfold rawVecShrinkTo
    rw [if_neg (by omega), hshr]
  have hg : rawVecGrowTo M es al v newLen₂ = (some (), ⟨h₂, newLen₂, s₂⟩) := by
    unfold rawVecGrowTo
    rw [if_neg (by omega), hgrw]
  exact ⟨hs, by rw [hs]; rfl, hg, by rw [hg]; rfl⟩

/-- A storage model whose grow and shrink always succeed, for
witnessing. -/
def okVecModel : VecStorageModel Nat Nat where
  allocate t _ := (some 0, t)
  deallocate t _ _ := t
  grow t _ _ _ := (some 1, t + 1)
  shrink t _ _ _ := (some 2, t + 2)

/-- Witness for `rawVec_shrink_keeps_len`: a length-5 raw vec shrunk to 3
keeps `len() = 5`; grown to 9 it reports `len() = 9`. -/
theorem rawVec_shrink_keeps_len_witness :
    rawVecShrinkTo okVecModel 4 4 ⟨0, 5, 10⟩ 3 = (some (), ⟨2, 5, 12⟩)
      ∧ (rawVecShrinkTo okVecModel 4 4 ⟨0, 5, 10⟩ 3).2.len = RawVec.len ⟨0, 5, 10⟩
      ∧ rawVecGrowTo okVecModel 4 4 ⟨0, 5, 10⟩ 9 = (some (), ⟨1, 9, 11⟩)
      ∧ (rawVecGrowTo okVecModel 4 4 ⟨0, 5, 10⟩ 9).2.len = 9 :=
  rawVec_shrink_keeps_len okVecModel 4 4 ⟨0, 5, 10⟩ 3 9 2 1 12 11
    (by decide) rfl (by decide) rfl

end StoragesApi
